import Mathlib

/-
Verification of the live-data subscription multiplexer
(`src/subscription_manager.rs` of rust-tradier).

The registry (`LiveDataSubscriptionManager`) is embedded shallowly:
`HashMap<String, ClientSubscription<T>>` becomes an association list
`List (String × ClientSub γ)` (keys unique in every reachable state, proved
below), `HashSet<String>` becomes `Finset String`, and the mpsc sender held
by a client is an opaque value of the type parameter `γ`.  The supervisor
loop of `run_websocket_task`, the routing of `process_message`, and
`connect` are embedded as explicit step / outcome functions.
-/

set_option maxHeartbeats 1000000

namespace RustTradier

/-- Lean image of `ClientSubscription<T>`: the desired-symbol set and the
client's output-channel sender (opaque, of type `γ`). -/
structure ClientSub (γ : Type) where
  symbols : Finset String
  data_tx : γ
deriving DecidableEq

/-- Lean image of the `clients` HashMap: an association list from client id
to subscription record. -/
abbrev Clients (γ : Type) := List (String × ClientSub γ)

/-- Lean image of the mutable state of `LiveDataSubscriptionManager<T>`:
the client registry, the aggregated interest set `websocket_symbols`, and
whether `websocket_task` currently holds a spawned task handle
(`Some(handle)` becomes `taskStarted = true`). -/
structure Mgr (γ : Type) where
  clients : Clients γ
  websocketSymbols : Finset String
  taskStarted : Bool
deriving DecidableEq

/-- State produced by `LiveDataSubscriptionManager::new()`: empty registry,
empty aggregated set, no websocket task. -/
def mgrInit {γ : Type} : Mgr γ :=
  { clients := [], websocketSymbols := ∅, taskStarted := false }

/-- HashMap lookup (`clients.get(&client_id)`): first entry with the key. -/
def lookupClient {γ : Type} : Clients γ → String → Option (ClientSub γ)
  | [], _ => none
  | (k, v) :: rest, cid => if k = cid then some v else lookupClient rest cid

/-- HashMap in-place update through `get_mut` / `entry`: replace the record
stored under key `cid` (keys are unique in reachable states, so at most one
entry changes). -/
def setClient {γ : Type} (cs : Clients γ) (cid : String) (sub : ClientSub γ) :
    Clients γ :=
  cs.map fun p => if p.1 = cid then (p.1, sub) else p

/-- Image of the loop `for symbol in &symbols { set.insert(symbol.clone()); }`. -/
def addSymbols (s : Finset String) (syms : List String) : Finset String :=
  syms.foldl (fun acc sym => insert sym acc) s

/-- Image of the loop `for symbol in symbols { set.remove(symbol); }`. -/
def removeSymbols (s : Finset String) (syms : List String) : Finset String :=
  syms.foldl (fun acc sym => acc.erase sym) s

/-- Key uniqueness of the association list, automatic for a `HashMap`. -/
abbrev NodupKeys {γ : Type} (cs : Clients γ) : Prop :=
  (cs.map Prod.fst).Nodup

/-- Embedding of `ensure_websocket_running`: if `websocket_task` holds no
handle, `start_websocket_task` spawns the task and stores its handle. -/
def ensure_websocket_running {γ : Type} (m : Mgr γ) : Mgr γ :=
  if m.taskStarted then m else { m with taskStarted := true }

/-- Embedding of `subscribe`: `clients.entry(client_id).or_insert(..)`
creates the record (with the supplied channel) if absent, then every symbol
of `symbols` is inserted into the client's set and into
`websocket_symbols`; finally `ensure_websocket_running` runs.  Returns
`Ok(())`. -/
def subscribe {γ : Type} (m : Mgr γ) (cid : String) (symbols : List String)
    (data_tx : γ) : Mgr γ × Except String Unit :=
  let entry :=
    match lookupClient m.clients cid with
    | some sub => (m.clients, sub)
    | none =>
        (m.clients ++ [(cid, (⟨∅, data_tx⟩ : ClientSub γ))],
         (⟨∅, data_tx⟩ : ClientSub γ))
  let clients1 := setClient entry.1 cid
    { entry.2 with symbols := addSymbols entry.2.symbols symbols }
  let ws1 := addSymbols m.websocketSymbols symbols
  (ensure_websocket_running
    { clients := clients1, websocketSymbols := ws1, taskStarted := m.taskStarted },
   Except.ok ())

/-- Embedding of `subscribe_symbol`: look up the client's existing channel;
if the client is unknown return the "not found" error without touching the
state, otherwise delegate to `subscribe` with the singleton list. -/
def subscribe_symbol {γ : Type} (m : Mgr γ) (cid sym : String) :
    Mgr γ × Except String Unit :=
  match lookupClient m.clients cid with
  | none =>
      (m, Except.error
        ("Client " ++ cid ++ " not found. Must subscribe to symbols first."))
  | some sub => subscribe m cid [sym] sub.data_tx

/-- Embedding of the `still_needed` scan inside `unsubscribe` and
`unsubscribe_all`: does some client other than `cid` contain `sym`? -/
def stillNeeded {γ : Type} (cs : Clients γ) (cid sym : String) : Bool :=
  cs.any fun p => decide (p.1 ≠ cid ∧ sym ∈ p.2.symbols)

/-- Embedding of `unsubscribe`: if the client exists, remove the symbols
from its set, then drop from `websocket_symbols` every listed symbol that no
other client still contains (the scan runs on the already-mutated map and
skips the calling client).  Unknown clients are a no-op.  Always `Ok(())`. -/
def unsubscribe {γ : Type} (m : Mgr γ) (cid : String) (symbols : List String) :
    Mgr γ × Except String Unit :=
  match lookupClient m.clients cid with
  | none => (m, Except.ok ())
  | some sub =>
    let sub' : ClientSub γ :=
      { sub with symbols := removeSymbols sub.symbols symbols }
    let clients' := setClient m.clients cid sub'
    let symbolsToRemove := symbols.filter fun sym => ! stillNeeded clients' cid sym
    ({ m with clients := clients',
              websocketSymbols := removeSymbols m.websocketSymbols symbolsToRemove },
     Except.ok ())

/-- Embedding of `unsubscribe_symbol`: delegates to `unsubscribe` with a
singleton list. -/
def unsubscribe_symbol {γ : Type} (m : Mgr γ) (cid sym : String) :
    Mgr γ × Except String Unit :=
  unsubscribe m cid [sym]

/-- Embedding of `unsubscribe_all`: snapshot the client's symbols, remove
each of them from the client's own set, then drop from `websocket_symbols`
every snapshot symbol no other client still contains.  Unknown clients give
`symbols_to_remove = []` and mutate nothing.  Always `Ok(())`. -/
def unsubscribe_all {γ : Type} (m : Mgr γ) (cid : String) :
    Mgr γ × Except String Unit :=
  match lookupClient m.clients cid with
  | none => (m, Except.ok ())
  | some sub =>
    let snapshot := sub.symbols.sort (· ≤ ·)
    let sub' : ClientSub γ :=
      { sub with symbols := removeSymbols sub.symbols snapshot }
    let clients' := setClient m.clients cid sub'
    let symbolsToRemove := snapshot.filter fun sym => ! stillNeeded clients' cid sym
    ({ m with clients := clients',
              websocketSymbols := removeSymbols m.websocketSymbols symbolsToRemove },
     Except.ok ())

/-- Embedding of `get_client_subscriptions` (the returned `Vec` is modelled
by the underlying set): the client's symbol set, empty if unknown. -/
def get_client_subscriptions {γ : Type} (m : Mgr γ) (cid : String) :
    Finset String :=
  match lookupClient m.clients cid with
  | some sub => sub.symbols
  | none => ∅

/-- Embedding of `get_active_symbols`: snapshot of `websocket_symbols`. -/
def get_active_symbols {γ : Type} (m : Mgr γ) : Finset String :=
  m.websocketSymbols

/-- Registry states reachable from `new()` by any finite sequence of
subscribe / unsubscribe calls. -/
inductive Reachable {γ : Type} : Mgr γ → Prop where
  | init : Reachable mgrInit
  | sub (m : Mgr γ) (cid : String) (syms : List String) (tx : γ) :
      Reachable m → Reachable (subscribe m cid syms tx).1
  | subSym (m : Mgr γ) (cid sym : String) :
      Reachable m → Reachable (subscribe_symbol m cid sym).1
  | unsub (m : Mgr γ) (cid : String) (syms : List String) :
      Reachable m → Reachable (unsubscribe m cid syms).1
  | unsubSym (m : Mgr γ) (cid sym : String) :
      Reachable m → Reachable (unsubscribe_symbol m cid sym).1
  | unsubAll (m : Mgr γ) (cid : String) :
      Reachable m → Reachable (unsubscribe_all m cid).1

/-- Combined registry invariant: unique keys, and `websocket_symbols` holds
exactly the symbols some client desires. -/
def Inv {γ : Type} (m : Mgr γ) : Prop :=
  NodupKeys m.clients ∧
    ∀ x : String, x ∈ m.websocketSymbols ↔ ∃ p ∈ m.clients, x ∈ p.2.symbols

/-- Ways a call of `run_websocket_session` can end, one per `return` site of
the Rust function. -/
inductive SessionOutcome where
  | cancelled
  | connectError
  | subscribeSendError
  | pongSendError
  | closeFrame
  | streamEnded
  | readError
  | pingSendError
deriving DecidableEq

/-- Boolean returned by `run_websocket_session` for each outcome; the in-code
comments read `true` as "try to reconnect" and `false` as "don't try to
reconnect" (the cancellation return). -/
def sessionShouldReconnect : SessionOutcome → Bool
  | .cancelled => false
  | .connectError => true
  | .subscribeSendError => true
  | .pongSendError => true
  | .closeFrame => true
  | .streamEnded => true
  | .readError => true
  | .pingSendError => true

/-- Result of one pass of the inner wait loop of `run_websocket_task` (the
idle state): break out with the symbol snapshot and attempt a connection,
return because the token was cancelled, or sleep 100 ms and poll again. -/
inductive WaitOutcome where
  | proceed (symbols : List String)
  | exitCancelled
  | pollAgain
deriving DecidableEq

/-- Embedding of the inner wait loop body of `run_websocket_task`: a
non-empty snapshot breaks out toward a connection attempt before the
cancellation token is even consulted; on an empty snapshot the select
between `cancelled()` and a 100 ms sleep either exits the task or polls
again. -/
def waitStep (symbols : List String) (cancelled : Bool) : WaitOutcome :=
  if symbols.isEmpty then
    if cancelled then .exitCancelled else .pollAgain
  else .proceed symbols

/-- What `run_websocket_task` does after a session ends: exit the task,
loop straight back to the next connection attempt, or loop back after the
5-second reconnect sleep. -/
inductive PostOutcome where
  | exitTask
  | reconnectImmediate
  | reconnectAfterDelay
deriving DecidableEq

/-- Embedding of the tail of the outer loop of `run_websocket_task`: the
block guarded by `if !should_continue` first exits when the aggregated set
is empty, otherwise selects between cancellation and the 5-second sleep;
both paths then fall through to the final `is_cancelled` check before the
loop repeats. -/
def postSessionStep (shouldContinue : Bool) (symbolsEmpty : Bool)
    (cancelledDuringDelay : Bool) (cancelledAfter : Bool) : PostOutcome :=
  if ! shouldContinue then
    if symbolsEmpty then .exitTask
    else if cancelledDuringDelay then .exitTask
    else if cancelledAfter then .exitTask
    else .reconnectAfterDelay
  else if cancelledAfter then .exitTask
  else .reconnectImmediate

/-- Minimal JSON value model for the frames handled by `serde_json::Value`. -/
inductive Json where
  | null
  | bool (b : Bool)
  | num (n : Int)
  | str (s : String)
  | arr (elems : List Json)
  | obj (fields : List (String × Json))

/-- Field lookup inside a JSON object literal: first binding of the key. -/
def lookupField : List (String × Json) → String → Option Json
  | [], _ => none
  | (k, v) :: rest, key => if k = key then some v else lookupField rest key

/-- Embedding of `Value::get(key)`: `Some` field value on an object that has
the key, `None` otherwise. -/
def Json.getField : Json → String → Option Json
  | .obj fields, key => lookupField fields key
  | _, _ => none

/-- Embedding of `serde_json` bracket indexing `value[key]`: like `get` but
total, yielding `Null` for a missing key or a non-object. -/
def Json.index (j : Json) (key : String) : Json :=
  match j.getField key with
  | some v => v
  | none => .null

/-- Embedding of `Value::as_str()`. -/
def Json.asStr : Json → Option String
  | .str s => some s
  | _ => none

/-- Embedding of `extract_symbol_from_message`:
`json_value.get("symbol").and_then(|s| s.as_str()).map(to_string)`. -/
def extract_symbol_from_message (jsonValue : Json) : Option String :=
  (jsonValue.getField "symbol").bind Json.asStr

/-- Clients kept by the routing filter of `process_message`: those whose
desired set contains the extracted symbol. -/
def interested {γ : Type} (cs : Clients γ) (symbol : String) : Clients γ :=
  cs.filter fun p => decide (symbol ∈ p.2.symbols)

/-- Embedding of `process_message`, returning the senders handed one
envelope copy each.  The argument is the result of
`serde_json::from_str::<Value>(payload)`: a parse error is logged and
nothing is delivered; a frame without an extractable symbol is dropped;
otherwise every client whose set contains the symbol gets one copy. -/
def process_message {γ : Type} (parsed : Except String Json) (cs : Clients γ) :
    List γ :=
  match parsed with
  | .error _ => []
  | .ok jsonValue =>
    match extract_symbol_from_message jsonValue with
    | none => []
    | some symbol => (interested cs symbol).map fun p => p.2.data_tx

/-- State of one bounded tokio mpsc channel as seen by the sender. -/
structure ChanState where
  capacity : Nat
  queued : Nat
  closed : Bool
deriving DecidableEq

/-- Result of one `sender.send(..).await` step. -/
inductive SendOutcome where
  | delivered
  | errClosed
  | awaitsCapacity
deriving DecidableEq

/-- Semantics of tokio `mpsc::Sender::send(..).await`: an immediate error
when the receiver is gone, immediate completion when a slot is free, and
otherwise a pending future that completes only once the receiver frees a
slot. -/
def mpscSend (ch : ChanState) : SendOutcome :=
  if ch.closed then .errClosed
  else if ch.queued < ch.capacity then .delivered
  else .awaitsCapacity

/-- Embedding of the delivery loop
`for sender in client_senders { let _ = sender.send(market_data.clone()).await; }`
under the assumption that no receiver consumes while the loop runs: each
send either finishes at once (`delivered`, or `errClosed` discarded by
`let _ =`) or awaits capacity, in which case the loop, and the read loop
driving it, is blocked and the remaining channels are returned unserved. -/
def deliverSeq : List ChanState → List SendOutcome × List ChanState
  | [] => ([], [])
  | ch :: rest =>
    match mpscSend ch with
    | .awaitsCapacity => ([SendOutcome.awaitsCapacity], rest)
    | out =>
      let r := deliverSeq rest
      (out :: r.1, r.2)

/-- Result of `connect()`, with the `unwrap` panic kept distinct from the
`Err` returns produced by the `?` operators. -/
inductive ConnectResult (σ : Type) where
  | ok (sid : String) (stream : σ)
  | err (e : String)
  | panicked
deriving DecidableEq

/-- Embedding of `connect()`: propagate a control-endpoint failure
(`tradier_post(..)?`), propagate a JSON parse failure (`from_str(..)?`),
index `data["stream"]["sessionid"]` and `unwrap()` its `as_str()` (a panic
when the field is not a string), then propagate a handshake failure
(`connect_async(..)?`).  `controlResp` is the control POST result, `parse`
the serde parse, `handshake` the WebSocket handshake result. -/
def connect {σ : Type} (controlResp : Except String String)
    (parse : String → Except String Json) (handshake : Except String σ) :
    ConnectResult σ :=
  match controlResp with
  | .error e => .err e
  | .ok resp =>
    match parse resp with
    | .error e => .err e
    | .ok data =>
      match ((data.index "stream").index "sessionid").asStr with
      | none => .panicked
      | some sid =>
        match handshake with
        | .error e => .err e
        | .ok ws => .ok sid ws

/-- Membership in the fold of `insert` over a list. -/
theorem mem_addSymbols : ∀ (l : List String) (s : Finset String) (x : String),
    x ∈ addSymbols s l ↔ x ∈ s ∨ x ∈ l
  | [], s, x => by simp [addSymbols]
  | a :: t, s, x => by
    have ih := mem_addSymbols t (insert a s) x
    simp only [addSymbols, List.foldl_cons] at ih ⊢
    rw [ih]
    simp only [Finset.mem_insert, List.mem_cons]
    tauto

/-- Membership in the fold of `erase` over a list. -/
theorem mem_removeSymbols : ∀ (l : List String) (s : Finset String) (x : String),
    x ∈ removeSymbols s l ↔ x ∈ s ∧ x ∉ l
  | [], s, x => by simp [removeSymbols]
  | a :: t, s, x => by
    have ih := mem_removeSymbols t (s.erase a) x
    simp only [removeSymbols, List.foldl_cons] at ih ⊢
    rw [ih]
    simp only [Finset.mem_erase, List.mem_cons]
    tauto

/-- Characterisation of a failed lookup. -/
theorem lookupClient_eq_none {γ : Type} : ∀ (cs : Clients γ) (cid : String),
    lookupClient cs cid = none ↔ ∀ p ∈ cs, p.1 ≠ cid
  | [], cid => by simp [lookupClient]
  | (k, v) :: rest, cid => by
    have ih := lookupClient_eq_none rest cid
    by_cases hk : k = cid
    · simp [lookupClient, hk]
    · simp only [lookupClient, if_neg hk, ih, List.mem_cons]
      constructor
      · rintro h p (rfl | hp)
        · exact hk
        · exact h p hp
      · intro h p hp
        exact h p (Or.inr hp)

/-- Successful lookup finds an entry of the list. -/
theorem lookupClient_mem {γ : Type} : ∀ (cs : Clients γ) (cid : String)
    (sub : ClientSub γ), lookupClient cs cid = some sub → (cid, sub) ∈ cs
  | [], _, _, h => by simp [lookupClient] at h
  | (k, v) :: rest, cid, sub, h => by
    by_cases hk : k = cid
    · simp only [lookupClient, if_pos hk, Option.some.injEq] at h
      subst hk; subst h
      exact List.mem_cons_self _ _
    · simp only [lookupClient, if_neg hk] at h
      exact List.mem_cons_of_mem _ (lookupClient_mem rest cid sub h)

/-- With unique keys, the looked-up value is the only value under the key. -/
theorem lookupClient_unique {γ : Type} : ∀ (cs : Clients γ), NodupKeys cs →
    ∀ (cid : String) (sub : ClientSub γ), lookupClient cs cid = some sub →
    ∀ p ∈ cs, p.1 = cid → p.2 = sub
  | [], _, _, _, h => by simp [lookupClient] at h
  | (k, v) :: rest, hnd, cid, sub, h => by
    have hnd' : NodupKeys rest := (List.nodup_cons.mp hnd).2
    have hk_not : k ∉ rest.map Prod.fst := (List.nodup_cons.mp hnd).1
    rintro p hp hpk
    rcases List.mem_cons.mp hp with rfl | hp'
    · simp only [lookupClient, if_pos hpk, Option.some.injEq] at h
      exact h
    · by_cases hk : k = cid
      · exfalso
        apply hk_not
        rw [hk, ← hpk]
        exact List.mem_map_of_mem Prod.fst hp'
      · simp only [lookupClient, if_neg hk] at h
        exact lookupClient_unique rest hnd' cid sub h p hp' hpk

/-- With unique keys, every entry is found by looking up its own key. -/
theorem lookupClient_of_mem {γ : Type} : ∀ (cs : Clients γ), NodupKeys cs →
    ∀ p ∈ cs, lookupClient cs p.1 = some p.2
  | [], _, p, hp => by simp at hp
  | (k, v) :: rest, hnd, p, hp => by
    have hnd' : NodupKeys rest := (List.nodup_cons.mp hnd).2
    have hk_not : k ∉ rest.map Prod.fst := (List.nodup_cons.mp hnd).1
    rcases List.mem_cons.mp hp with rfl | hp'
    · simp [lookupClient]
    · have hne : k ≠ p.1 := by
        rintro rfl
        exact hk_not (List.mem_map_of_mem Prod.fst hp')
      simp only [lookupClient, if_neg hne]
      exact lookupClient_of_mem rest hnd' p hp'

/-- Appending a fresh entry is found when the key was absent. -/
theorem lookupClient_append_none {γ : Type} : ∀ (cs : Clients γ) (cid : String)
    (v : ClientSub γ), lookupClient cs cid = none →
    lookupClient (cs ++ [(cid, v)]) cid = some v
  | [], cid, v, _ => by simp [lookupClient]
  | (k, w) :: rest, cid, v, h => by
    by_cases hk : k = cid
    · simp [lookupClient, if_pos hk] at h
    · simp only [lookupClient, if_neg hk] at h ⊢
      exact lookupClient_append_none rest cid v h

/-- Keys are untouched by `setClient`. -/
theorem setClient_map_fst {γ : Type} (cs : Clients γ) (cid : String)
    (sub : ClientSub γ) :
    (setClient cs cid sub).map Prod.fst = cs.map Prod.fst := by
  induction cs with
  | nil => rfl
  | cons p t ih =>
    simp only [setClient, List.map_cons] at ih ⊢
    by_cases hp : p.1 = cid
    · simp [hp, ih]
    · simp [hp, ih]

/-- Key uniqueness survives `setClient`. -/
theorem nodupKeys_setClient {γ : Type} (cs : Clients γ) (cid : String)
    (sub : ClientSub γ) (hnd : NodupKeys cs) : NodupKeys (setClient cs cid sub) := by
  unfold NodupKeys at *
  rw [setClient_map_fst]
  exact hnd

/-- Unfolding of `setClient` on a cons cell. -/
theorem setClient_cons {γ : Type} (k : String) (v : ClientSub γ)
    (rest : Clients γ) (cid : String) (sub' : ClientSub γ) :
    setClient ((k, v) :: rest) cid sub' =
      (if k = cid then (k, sub') else (k, v)) :: setClient rest cid sub' := rfl

/-- Update is observed by a lookup of the same key that previously succeeded. -/
theorem lookupClient_setClient_self {γ : Type} : ∀ (cs : Clients γ)
    (cid : String) (sub sub' : ClientSub γ),
    lookupClient cs cid = some sub →
    lookupClient (setClient cs cid sub') cid = some sub'
  | [], _, _, _, h => by simp [lookupClient] at h
  | (k, v) :: rest, cid, sub, sub', h => by
    rw [setClient_cons]
    by_cases hk : k = cid
    · subst hk
      rw [if_pos rfl]
      simp [lookupClient]
    · rw [if_neg hk]
      simp only [lookupClient, if_neg hk] at h ⊢
      exact lookupClient_setClient_self rest cid sub sub' h

/-- Lookups of other keys are untouched by `setClient`. -/
theorem lookupClient_setClient_ne {γ : Type} : ∀ (cs : Clients γ)
    (cid cid' : String) (sub' : ClientSub γ), cid' ≠ cid →
    lookupClient (setClient cs cid sub') cid' = lookupClient cs cid'
  | [], _, _, _, _ => rfl
  | (k, v) :: rest, cid, cid', sub', hne => by
    rw [setClient_cons]
    by_cases hk : k = cid
    · have hk' : k ≠ cid' := by
        rw [hk]
        exact fun h => hne h.symm
      rw [if_pos hk]
      simp only [lookupClient, if_neg hk']
      exact lookupClient_setClient_ne rest cid cid' sub' hne
    · rw [if_neg hk]
      simp only [lookupClient]
      by_cases hk' : k = cid'
      · simp [hk']
      · simp only [if_neg hk']
        exact lookupClient_setClient_ne rest cid cid' sub' hne

/-- Symbol occurrence across an updated registry. -/
theorem exists_setClient {γ : Type} (cs : Clients γ) (cid : String)
    (sub' : ClientSub γ) (x : String) :
    (∃ p ∈ setClient cs cid sub', x ∈ p.2.symbols) ↔
      ((∃ p ∈ cs, p.1 = cid) ∧ x ∈ sub'.symbols) ∨
        (∃ p ∈ cs, p.1 ≠ cid ∧ x ∈ p.2.symbols) := by
  unfold setClient
  constructor
  · rintro ⟨q, hq, hx⟩
    rcases List.mem_map.mp hq with ⟨p, hp, rfl⟩
    by_cases hpk : p.1 = cid
    · left
      refine ⟨⟨p, hp, hpk⟩, ?_⟩
      simpa [hpk] using hx
    · right
      refine ⟨p, hp, hpk, ?_⟩
      simpa [hpk] using hx
  · rintro (⟨⟨p, hp, hpk⟩, hx⟩ | ⟨p, hp, hpk, hx⟩)
    · exact ⟨(p.1, sub'), List.mem_map.mpr ⟨p, hp, by simp [hpk]⟩, hx⟩
    · exact ⟨p, List.mem_map.mpr ⟨p, hp, by simp [hpk]⟩, hx⟩

/-- Entries of other clients across an updated registry. -/
theorem exists_ne_setClient {γ : Type} (cs : Clients γ) (cid : String)
    (sub' : ClientSub γ) (x : String) :
    (∃ p ∈ setClient cs cid sub', p.1 ≠ cid ∧ x ∈ p.2.symbols) ↔
      ∃ p ∈ cs, p.1 ≠ cid ∧ x ∈ p.2.symbols := by
  unfold setClient
  constructor
  · rintro ⟨q, hq, hqk, hx⟩
    rcases List.mem_map.mp hq with ⟨p, hp, rfl⟩
    by_cases hpk : p.1 = cid
    · simp [hpk] at hqk
    · exact ⟨p, hp, hpk, by simpa [hpk] using hx⟩
  · rintro ⟨p, hp, hpk, hx⟩
    exact ⟨p, List.mem_map.mpr ⟨p, hp, by simp [hpk]⟩, hpk, hx⟩

/-- Boolean scan `stillNeeded` as a proposition. -/
theorem stillNeeded_iff {γ : Type} (cs : Clients γ) (cid sym : String) :
    stillNeeded cs cid sym = true ↔ ∃ p ∈ cs, p.1 ≠ cid ∧ sym ∈ p.2.symbols := by
  unfold stillNeeded
  rw [List.any_eq_true]
  constructor
  · rintro ⟨p, hp, hd⟩
    exact ⟨p, hp, of_decide_eq_true hd⟩
  · rintro ⟨p, hp, h⟩
    exact ⟨p, hp, decide_eq_true h⟩

/-- Splitting a symbol occurrence between the looked-up client and the rest. -/
theorem exists_split {γ : Type} (cs : Clients γ) (hnd : NodupKeys cs)
    (cid : String) (sub : ClientSub γ) (h : lookupClient cs cid = some sub)
    (x : String) :
    (∃ p ∈ cs, x ∈ p.2.symbols) ↔
      x ∈ sub.symbols ∨ ∃ p ∈ cs, p.1 ≠ cid ∧ x ∈ p.2.symbols := by
  constructor
  · rintro ⟨p, hp, hx⟩
    by_cases hpk : p.1 = cid
    · left
      rw [← lookupClient_unique cs hnd cid sub h p hp hpk]
      exact hx
    · exact Or.inr ⟨p, hp, hpk, hx⟩
  · rintro (hx | ⟨p, hp, _, hx⟩)
    · exact ⟨(cid, sub), lookupClient_mem cs cid sub h, hx⟩
    · exact ⟨p, hp, hx⟩

/-- Field access after `ensure_websocket_running`: registry unchanged. -/
theorem ensure_clients {γ : Type} (m : Mgr γ) :
    (ensure_websocket_running m).clients = m.clients := by
  unfold ensure_websocket_running
  split <;> rfl

/-- Field access after `ensure_websocket_running`: aggregated set unchanged. -/
theorem ensure_symbols {γ : Type} (m : Mgr γ) :
    (ensure_websocket_running m).websocketSymbols = m.websocketSymbols := by
  unfold ensure_websocket_running
  split <;> rfl

/-- Running `ensure_websocket_running` leaves a task handle in place. -/
theorem ensure_taskStarted {γ : Type} (m : Mgr γ) :
    (ensure_websocket_running m).taskStarted = true := by
  unfold ensure_websocket_running
  split <;> simp_all

/-- Boolean falsity as negated truth. -/
theorem bool_eq_false_iff (b : Bool) : b = false ↔ ¬ b = true := by
  cases b <;> simp

/-- Invariant transport across `ensure_websocket_running`. -/
theorem inv_ensure_iff {γ : Type} (m : Mgr γ) :
    Inv (ensure_websocket_running m) ↔ Inv m := by
  unfold Inv NodupKeys
  rw [ensure_clients, ensure_symbols]

/-- Resulting state of `subscribe` when the client already exists. -/
theorem subscribe_state_some {γ : Type} (m : Mgr γ) (cid : String)
    (syms : List String) (tx : γ) (sub : ClientSub γ)
    (hlk : lookupClient m.clients cid = some sub) :
    (subscribe m cid syms tx).1 =
      ensure_websocket_running
        { clients := setClient m.clients cid
            { sub with symbols := addSymbols sub.symbols syms },
          websocketSymbols := addSymbols m.websocketSymbols syms,
          taskStarted := m.taskStarted } := by
  unfold subscribe
  rw [hlk]

/-- Resulting state of `subscribe` when the client is new. -/
theorem subscribe_state_none {γ : Type} (m : Mgr γ) (cid : String)
    (syms : List String) (tx : γ)
    (hlk : lookupClient m.clients cid = none) :
    (subscribe m cid syms tx).1 =
      ensure_websocket_running
        { clients := setClient (m.clients ++ [(cid, (⟨∅, tx⟩ : ClientSub γ))]) cid
            (⟨addSymbols ∅ syms, tx⟩ : ClientSub γ),
          websocketSymbols := addSymbols m.websocketSymbols syms,
          taskStarted := m.taskStarted } := by
  unfold subscribe
  rw [hlk]

/-- Return value of `subscribe` is always `Ok(())`. -/
theorem subscribe_ok {γ : Type} (m : Mgr γ) (cid : String) (syms : List String)
    (tx : γ) : (subscribe m cid syms tx).2 = Except.ok () := rfl

/-- Resulting state of `unsubscribe` for an unknown client. -/
theorem unsubscribe_state_none {γ : Type} (m : Mgr γ) (cid : String)
    (syms : List String) (hlk : lookupClient m.clients cid = none) :
    unsubscribe m cid syms = (m, Except.ok ()) := by
  unfold unsubscribe
  rw [hlk]

/-- Resulting state of `unsubscribe` for a known client. -/
theorem unsubscribe_state_some {γ : Type} (m : Mgr γ) (cid : String)
    (syms : List String) (sub : ClientSub γ)
    (hlk : lookupClient m.clients cid = some sub) :
    unsubscribe m cid syms =
      ({ m with
          clients := setClient m.clients cid
            { sub with symbols := removeSymbols sub.symbols syms },
          websocketSymbols := removeSymbols m.websocketSymbols
            (syms.filter fun sym => ! stillNeeded
              (setClient m.clients cid
                { sub with symbols := removeSymbols sub.symbols syms }) cid sym) },
       Except.ok ()) := by
  unfold unsubscribe
  rw [hlk]

/-- Resulting state of `unsubscribe_all` for an unknown client. -/
theorem unsubscribe_all_state_none {γ : Type} (m : Mgr γ) (cid : String)
    (hlk : lookupClient m.clients cid = none) :
    unsubscribe_all m cid = (m, Except.ok ()) := by
  unfold unsubscribe_all
  rw [hlk]

/-- Resulting state of `unsubscribe_all` for a known client. -/
theorem unsubscribe_all_state_some {γ : Type} (m : Mgr γ) (cid : String)
    (sub : ClientSub γ) (hlk : lookupClient m.clients cid = some sub) :
    unsubscribe_all m cid =
      ({ m with
          clients := setClient m.clients cid
            { sub with symbols := removeSymbols sub.symbols (sub.symbols.sort (· ≤ ·)) },
          websocketSymbols := removeSymbols m.websocketSymbols
            ((sub.symbols.sort (· ≤ ·)).filter fun sym => ! stillNeeded
              (setClient m.clients cid
                { sub with symbols := removeSymbols sub.symbols (sub.symbols.sort (· ≤ ·)) }) cid sym) },
       Except.ok ()) := by
  unfold unsubscribe_all
  rw [hlk]

/-- Shared invariant-preservation core of `unsubscribe` and
`unsubscribe_all` for a known client. -/
theorem inv_unsub_core {γ : Type} (m : Mgr γ) (cid : String)
    (sub : ClientSub γ) (syms : List String) (hnd : NodupKeys m.clients)
    (hiff : ∀ x : String,
      x ∈ m.websocketSymbols ↔ ∃ p ∈ m.clients, x ∈ p.2.symbols)
    (hlk : lookupClient m.clients cid = some sub) :
    Inv { m with
      clients := setClient m.clients cid
        { sub with symbols := removeSymbols sub.symbols syms },
      websocketSymbols := removeSymbols m.websocketSymbols
        (syms.filter fun sym => ! stillNeeded
          (setClient m.clients cid
            { sub with symbols := removeSymbols sub.symbols syms }) cid sym) } := by
  constructor
  · exact nodupKeys_setClient _ _ _ hnd
  · intro x
    dsimp only
    rw [mem_removeSymbols, exists_setClient]
    dsimp only
    rw [mem_removeSymbols]
    have hE := exists_ne_setClient m.clients cid
      { sub with symbols := removeSymbols sub.symbols syms } x
    have hstill := stillNeeded_iff
      (setClient m.clients cid { sub with symbols := removeSymbols sub.symbols syms })
      cid x
    have hbool := bool_eq_false_iff
      (stillNeeded
        (setClient m.clients cid { sub with symbols := removeSymbols sub.symbols syms })
        cid x)
    have hfilter : (x ∈ syms.filter fun sym => ! stillNeeded
          (setClient m.clients cid { sub with symbols := removeSymbols sub.symbols syms })
          cid sym) ↔
        x ∈ syms ∧ stillNeeded
          (setClient m.clients cid { sub with symbols := removeSymbols sub.symbols syms })
          cid x = false := by
      rw [List.mem_filter, Bool.not_eq_true']
    rw [hiff x, exists_split m.clients hnd cid sub hlk x, hfilter, hbool, hstill, hE]
    have hkey : ∃ p ∈ m.clients, p.1 = cid :=
      ⟨(cid, sub), lookupClient_mem _ _ _ hlk, rfl⟩
    simp only [eq_true hkey, true_and]
    generalize (∃ p ∈ m.clients, p.1 ≠ cid ∧ x ∈ p.2.symbols) = E
    generalize (x ∈ sub.symbols) = S
    generalize (x ∈ syms) = Y
    tauto

/-- Stepping `subscribe` preserves the registry invariant. -/
theorem inv_subscribe {γ : Type} (m : Mgr γ) (cid : String) (syms : List String)
    (tx : γ) (hInv : Inv m) : Inv (subscribe m cid syms tx).1 := by
  obtain ⟨hnd, hiff⟩ := hInv
  cases hlk : lookupClient m.clients cid with
  | some sub =>
    rw [subscribe_state_some m cid syms tx sub hlk, inv_ensure_iff]
    constructor
    · exact nodupKeys_setClient _ _ _ hnd
    · intro x
      dsimp only
      rw [mem_addSymbols, exists_setClient]
      dsimp only
      rw [mem_addSymbols]
      rw [hiff x, exists_split m.clients hnd cid sub hlk x]
      have hkey : ∃ p ∈ m.clients, p.1 = cid :=
        ⟨(cid, sub), lookupClient_mem _ _ _ hlk, rfl⟩
      simp only [eq_true hkey, true_and]
      generalize (∃ p ∈ m.clients, p.1 ≠ cid ∧ x ∈ p.2.symbols) = E
      generalize (x ∈ sub.symbols) = S
      generalize (x ∈ syms) = Y
      tauto
  | none =>
    rw [subscribe_state_none m cid syms tx hlk, inv_ensure_iff]
    have hno : ∀ p ∈ m.clients, p.1 ≠ cid := (lookupClient_eq_none _ _).mp hlk
    constructor
    · apply nodupKeys_setClient
      unfold NodupKeys
      rw [List.map_append]
      rw [List.nodup_append]
      refine ⟨hnd, List.nodup_singleton _, ?_⟩
      intro a ha hb
      rcases List.mem_map.mp ha with ⟨p, hp, rfl⟩
      have hcid : p.1 = cid := by
        have := List.mem_singleton.mp hb
        simpa using this
      exact hno p hp hcid
    · intro x
      dsimp only
      rw [mem_addSymbols, exists_setClient]
      dsimp only
      rw [mem_addSymbols]
      have h1 : (∃ p ∈ m.clients ++ [(cid, (⟨∅, tx⟩ : ClientSub γ))],
            p.1 ≠ cid ∧ x ∈ p.2.symbols) ↔
          ∃ p ∈ m.clients, x ∈ p.2.symbols := by
        constructor
        · rintro ⟨p, hp, hpk, hx⟩
          rcases List.mem_append.mp hp with hp' | hp'
          · exact ⟨p, hp', hx⟩
          · rcases List.mem_singleton.mp hp' with rfl
            simp at hpk
        · rintro ⟨p, hp, hx⟩
          exact ⟨p, List.mem_append.mpr (Or.inl hp), hno p hp, hx⟩
      have hkey : ∃ p ∈ m.clients ++ [(cid, (⟨∅, tx⟩ : ClientSub γ))], p.1 = cid :=
        ⟨(cid, ⟨∅, tx⟩), List.mem_append.mpr (Or.inr (List.mem_singleton.mpr rfl)), rfl⟩
      rw [hiff x, h1]
      simp only [eq_true hkey, true_and, Finset.not_mem_empty, false_or]
      generalize (∃ p ∈ m.clients, x ∈ p.2.symbols) = B
      generalize (x ∈ syms) = Y
      tauto

/-- Stepping `subscribe_symbol` preserves the registry invariant. -/
theorem inv_subscribe_symbol {γ : Type} (m : Mgr γ) (cid sym : String)
    (hInv : Inv m) : Inv (subscribe_symbol m cid sym).1 := by
  unfold subscribe_symbol
  cases hlk : lookupClient m.clients cid with
  | none => exact hInv
  | some sub => exact inv_subscribe m cid [sym] sub.data_tx hInv

/-- Stepping `unsubscribe` preserves the registry invariant. -/
theorem inv_unsubscribe {γ : Type} (m : Mgr γ) (cid : String)
    (syms : List String) (hInv : Inv m) : Inv (unsubscribe m cid syms).1 := by
  obtain ⟨hnd, hiff⟩ := hInv
  cases hlk : lookupClient m.clients cid with
  | none =>
    rw [unsubscribe_state_none m cid syms hlk]
    exact ⟨hnd, hiff⟩
  | some sub =>
    rw [unsubscribe_state_some m cid syms sub hlk]
    exact inv_unsub_core m cid sub syms hnd hiff hlk

/-- Stepping `unsubscribe_symbol` preserves the registry invariant. -/
theorem inv_unsubscribe_symbol {γ : Type} (m : Mgr γ) (cid sym : String)
    (hInv : Inv m) : Inv (unsubscribe_symbol m cid sym).1 :=
  inv_unsubscribe m cid [sym] hInv

/-- Stepping `unsubscribe_all` preserves the registry invariant. -/
theorem inv_unsubscribe_all {γ : Type} (m : Mgr γ) (cid : String)
    (hInv : Inv m) : Inv (unsubscribe_all m cid).1 := by
  obtain ⟨hnd, hiff⟩ := hInv
  cases hlk : lookupClient m.clients cid with
  | none =>
    rw [unsubscribe_all_state_none m cid hlk]
    exact ⟨hnd, hiff⟩
  | some sub =>
    rw [unsubscribe_all_state_some m cid sub hlk]
    exact inv_unsub_core m cid sub (sub.symbols.sort (· ≤ ·)) hnd hiff hlk

/-- Every reachable registry state satisfies the invariant. -/
theorem reachable_inv {γ : Type} (m : Mgr γ) (h : Reachable m) : Inv m := by
  induction h with
  | init =>
    refine ⟨List.nodup_nil, ?_⟩
    intro x
    simp [mgrInit]
  | sub m cid syms tx _ ih => exact inv_subscribe m cid syms tx ih
  | subSym m cid sym _ ih => exact inv_subscribe_symbol m cid sym ih
  | unsub m cid syms _ ih => exact inv_unsubscribe m cid syms ih
  | unsubSym m cid sym _ ih => exact inv_unsubscribe_symbol m cid sym ih
  | unsubAll m cid _ ih => exact inv_unsubscribe_all m cid ih

/-- C1: for every finite sequence of subscribe, subscribeSymbol,
unsubscribe, unsubscribeSymbol and unsubscribeAll calls applied from the
initial empty state, `getActiveSymbols()` equals the union of
`getClientSubscriptions(c)` over all clients: a symbol is in the aggregated
interest set if and only if some client currently desires it. -/
theorem c1_active_symbols_eq_union {γ : Type} (m : Mgr γ) (h : Reachable m)
    (x : String) :
    x ∈ get_active_symbols m ↔
      ∃ cid : String, x ∈ get_client_subscriptions m cid := by
  obtain ⟨hnd, hiff⟩ := reachable_inv m h
  unfold get_active_symbols
  rw [hiff x]
  constructor
  · rintro ⟨p, hp, hx⟩
    refine ⟨p.1, ?_⟩
    unfold get_client_subscriptions
    rw [lookupClient_of_mem m.clients hnd p hp]
    exact hx
  · rintro ⟨cid, hx⟩
    unfold get_client_subscriptions at hx
    cases hlk : lookupClient m.clients cid with
    | none =>
      rw [hlk] at hx
      simp at hx
    | some sub =>
      rw [hlk] at hx
      exact ⟨(cid, sub), lookupClient_mem _ _ _ hlk, hx⟩

/-- Witness for C1 at a concrete reachable state: after one subscribe call
the symbol is both active and desired. -/
theorem c1_active_symbols_eq_union_witness :
    "AAPL" ∈ get_active_symbols ((subscribe (mgrInit : Mgr Nat) "client1" ["AAPL"] 0).1) :=
  (c1_active_symbols_eq_union _
    (Reachable.sub mgrInit "client1" ["AAPL"] 0 Reachable.init) "AAPL").mpr
    ⟨"client1", by decide⟩

/-- C6: `subscribeSymbol` on a client id with no existing subscription
record returns the "client not found" error and performs no registry
mutation: the whole manager state is returned unchanged. -/
theorem c6_subscribe_symbol_unknown_client {γ : Type} (m : Mgr γ)
    (cid sym : String) (h : lookupClient m.clients cid = none) :
    subscribe_symbol m cid sym =
      (m, Except.error
        ("Client " ++ cid ++ " not found. Must subscribe to symbols first.")) := by
  unfold subscribe_symbol
  rw [h]

/-- Witness for C6. -/
theorem c6_subscribe_symbol_unknown_client_witness :
    subscribe_symbol (mgrInit : Mgr Nat) "ghost" "AAPL" =
      (mgrInit, Except.error
        ("Client " ++ "ghost" ++ " not found. Must subscribe to symbols first.")) :=
  c6_subscribe_symbol_unknown_client mgrInit "ghost" "AAPL" rfl

/-- C8: a further subscribe call for an existing client merges the new
symbols into the client's desired set by set union and retains the original
output channel, ignoring the newly supplied channel. -/
theorem c8_resubscribe_merges_and_keeps_channel {γ : Type} (m : Mgr γ)
    (cid : String) (syms : List String) (tx2 : γ) (sub : ClientSub γ)
    (h : lookupClient m.clients cid = some sub) :
    lookupClient ((subscribe m cid syms tx2).1).clients cid =
      some ⟨sub.symbols ∪ syms.toFinset, sub.data_tx⟩ := by
  rw [subscribe_state_some m cid syms tx2 sub h, ensure_clients]
  dsimp only
  rw [lookupClient_setClient_self m.clients cid sub
    { sub with symbols := addSymbols sub.symbols syms } h]
  have hset : addSymbols sub.symbols syms = sub.symbols ∪ syms.toFinset := by
    ext y
    rw [mem_addSymbols _ _ y, Finset.mem_union, List.mem_toFinset]
  rw [hset]

/-- Witness for C8: client "c" with channel 5 and set containing "A" is
re-subscribed to "B" with channel 7; the record becomes the union with the
original channel 5. -/
theorem c8_resubscribe_merges_and_keeps_channel_witness :
    lookupClient ((subscribe
        ({ clients := [("c", (⟨{"A"}, 5⟩ : ClientSub Nat))],
           websocketSymbols := {"A"}, taskStarted := true } : Mgr Nat)
        "c" ["B"] 7).1).clients "c" =
      some ⟨({"A"} : Finset String) ∪ ["B"].toFinset, 5⟩ :=
  c8_resubscribe_merges_and_keeps_channel _ "c" ["B"] 7 ⟨{"A"}, 5⟩ (by decide)

/-- C9: `unsubscribeAll` for one client leaves every other client's desired
symbol set unchanged. -/
theorem c9_unsubscribe_all_frame {γ : Type} (m : Mgr γ) (a b : String)
    (h : b ≠ a) :
    get_client_subscriptions ((unsubscribe_all m a).1) b =
      get_client_subscriptions m b := by
  cases hlk : lookupClient m.clients a with
  | none => rw [unsubscribe_all_state_none m a hlk]
  | some sub =>
    rw [unsubscribe_all_state_some m a sub hlk]
    unfold get_client_subscriptions
    dsimp only
    rw [lookupClient_setClient_ne m.clients a b _ h]

/-- Witness for C9 on a two-client registry. -/
theorem c9_unsubscribe_all_frame_witness :
    get_client_subscriptions ((unsubscribe_all
        ({ clients := [("a", (⟨{"X"}, 0⟩ : ClientSub Nat)),
                       ("b", ⟨{"X", "Y"}, 1⟩)],
           websocketSymbols := {"X", "Y"}, taskStarted := true } : Mgr Nat)
        "a").1) "b" =
      get_client_subscriptions
        ({ clients := [("a", (⟨{"X"}, 0⟩ : ClientSub Nat)),
                       ("b", ⟨{"X", "Y"}, 1⟩)],
           websocketSymbols := {"X", "Y"}, taskStarted := true } : Mgr Nat) "b" :=
  c9_unsubscribe_all_frame _ "a" "b" (by decide)

/-- C10: unsubscribe, unsubscribeSymbol and unsubscribeAll on a client id
that was never registered all return Ok and leave the client registry and
the aggregated interest set (indeed the whole manager state) unchanged. -/
theorem c10_unsubscribe_unknown_noop {γ : Type} (m : Mgr γ) (cid sym : String)
    (syms : List String) (h : lookupClient m.clients cid = none) :
    unsubscribe m cid syms = (m, Except.ok ()) ∧
      unsubscribe_symbol m cid sym = (m, Except.ok ()) ∧
      unsubscribe_all m cid = (m, Except.ok ()) :=
  ⟨unsubscribe_state_none m cid syms h,
   unsubscribe_state_none m cid [sym] h,
   unsubscribe_all_state_none m cid h⟩

/-- Witness for C10 on the empty registry. -/
theorem c10_unsubscribe_unknown_noop_witness :
    unsubscribe (mgrInit : Mgr Nat) "ghost" ["AAPL"] = (mgrInit, Except.ok ()) ∧
      unsubscribe_symbol (mgrInit : Mgr Nat) "ghost" "MSFT" = (mgrInit, Except.ok ()) ∧
      unsubscribe_all (mgrInit : Mgr Nat) "ghost" = (mgrInit, Except.ok ()) :=
  c10_unsubscribe_unknown_noop mgrInit "ghost" "MSFT" ["AAPL"] rfl

/-- Supervisor wait loop proceeds on a non-empty snapshot. -/
theorem waitStep_proceed (l : List String) (h : l ≠ []) :
    waitStep l false = WaitOutcome.proceed l := by
  cases l with
  | nil => exact absurd rfl h
  | cons a t => rfl

/-- An uncancelled supervisor never exits from the wait loop. -/
theorem waitStep_no_exit (l : List String) :
    waitStep l false ≠ WaitOutcome.exitCancelled := by
  cases l with
  | nil => intro hc; cases hc
  | cons a t => intro hc; cases hc

/-- An uncancelled supervisor never exits the task after a session, whatever
its outcome, since only the cancelled outcome returns false. -/
theorem postSessionStep_no_exit (o : SessionOutcome)
    (ho : o ≠ SessionOutcome.cancelled) (e : Bool) :
    postSessionStep (sessionShouldReconnect o) e false false ≠
      PostOutcome.exitTask := by
  cases o with
  | cancelled => exact absurd rfl ho
  | connectError => intro hc; cases hc
  | subscribeSendError => intro hc; cases hc
  | pongSendError => intro hc; cases hc
  | closeFrame => intro hc; cases hc
  | streamEnded => intro hc; cases hc
  | readError => intro hc; cases hc
  | pingSendError => intro hc; cases hc

/-- C2: when a subscribe call on a not-shut-down manager turns the
aggregated interest set from empty to non-empty, a supervisor task handle is
in place, and the supervisor's idle wait loop, polling the now non-empty
set with the cancellation token unset, breaks out into a connection
attempt.  Moreover, with the token unset the supervisor task can never have
exited beforehand — neither from the wait loop nor after a session of any
outcome — so the same holds when the supervisor had previously gone idle
because interest became empty. -/
theorem c2_interest_nonempty_starts_connection {γ : Type} (m : Mgr γ)
    (cid : String) (syms : List String) (tx : γ)
    (_hpre : m.websocketSymbols = ∅)
    (hpost : ((subscribe m cid syms tx).1).websocketSymbols ≠ ∅) :
    ((subscribe m cid syms tx).1).taskStarted = true ∧
      waitStep (((subscribe m cid syms tx).1).websocketSymbols.sort (· ≤ ·)) false
        = WaitOutcome.proceed
            (((subscribe m cid syms tx).1).websocketSymbols.sort (· ≤ ·)) ∧
      (∀ l : List String, waitStep l false ≠ WaitOutcome.exitCancelled) ∧
      (∀ o : SessionOutcome, o ≠ SessionOutcome.cancelled → ∀ e : Bool,
        postSessionStep (sessionShouldReconnect o) e false false ≠
          PostOutcome.exitTask) := by
  refine ⟨?_, ?_, waitStep_no_exit, postSessionStep_no_exit⟩
  · cases hlk : lookupClient m.clients cid with
    | some sub =>
      rw [subscribe_state_some m cid syms tx sub hlk]
      exact ensure_taskStarted _
    | none =>
      rw [subscribe_state_none m cid syms tx hlk]
      exact ensure_taskStarted _
  · apply waitStep_proceed
    intro hnil
    apply hpost
    rw [Finset.eq_empty_iff_forall_not_mem]
    intro y hy
    have hmem : y ∈ ((subscribe m cid syms tx).1).websocketSymbols.sort (· ≤ ·) :=
      (Finset.mem_sort _).mpr hy
    rw [hnil] at hmem
    exact (List.not_mem_nil y) hmem

/-- Witness for C2: the first subscribe on a fresh manager. -/
theorem c2_interest_nonempty_starts_connection_witness :
    ((subscribe (mgrInit : Mgr Nat) "client1" ["AAPL"] 0).1).taskStarted = true ∧
      waitStep
          (((subscribe (mgrInit : Mgr Nat) "client1" ["AAPL"] 0).1).websocketSymbols.sort (· ≤ ·))
          false
        = WaitOutcome.proceed
            (((subscribe (mgrInit : Mgr Nat) "client1" ["AAPL"] 0).1).websocketSymbols.sort (· ≤ ·)) ∧
      postSessionStep (sessionShouldReconnect SessionOutcome.connectError)
          false false false ≠ PostOutcome.exitTask := by
  have h := c2_interest_nonempty_starts_connection mgrInit "client1" ["AAPL"] 0
    rfl (by decide)
  exact ⟨h.1, h.2.1, h.2.2.2 SessionOutcome.connectError (by decide) false⟩

/-- C3 (code bug): after a session that ends in failure (for example a
connect error or a read error) the supervisor does not wait the fixed retry
delay: `run_websocket_session` returns true on every failure, while the
block containing the 5-second reconnect sleep runs only under
`if !should_continue`, so a failed session is followed by an immediate
reconnect and the delay branch is reached only for the cancelled outcome. -/
theorem c3_failed_session_reconnects_without_delay :
    postSessionStep (sessionShouldReconnect SessionOutcome.connectError)
        false false false = PostOutcome.reconnectImmediate ∧
      postSessionStep (sessionShouldReconnect SessionOutcome.readError)
        false false false = PostOutcome.reconnectImmediate ∧
      postSessionStep (sessionShouldReconnect SessionOutcome.streamEnded)
        false false false = PostOutcome.reconnectImmediate ∧
      postSessionStep (sessionShouldReconnect SessionOutcome.cancelled)
        false false false = PostOutcome.reconnectAfterDelay :=
  ⟨rfl, rfl, rfl, rfl⟩

/-- Unfolding of the delivery loop when a send completes at once. -/
theorem deliverSeq_cons_done (ch : ChanState) (rest : List ChanState)
    (h : mpscSend ch ≠ SendOutcome.awaitsCapacity) :
    deliverSeq (ch :: rest) =
      (mpscSend ch :: (deliverSeq rest).1, (deliverSeq rest).2) := by
  cases hout : mpscSend ch with
  | awaitsCapacity => exact absurd hout h
  | delivered => simp only [deliverSeq, hout]
  | errClosed => simp only [deliverSeq, hout]

/-- Unfolding of the delivery loop when a send awaits capacity. -/
theorem deliverSeq_cons_stall (ch : ChanState) (rest : List ChanState)
    (h : mpscSend ch = SendOutcome.awaitsCapacity) :
    deliverSeq (ch :: rest) = ([SendOutcome.awaitsCapacity], rest) := by
  unfold deliverSeq
  rw [h]

/-- C4 counterexample: a frame routed to two interested clients, the first
with a full open channel (capacity one, one message queued, receiver alive)
and the second with a free channel.  The first send awaits capacity, the
loop blocks there, and the second client is left unserved — a full channel
does stall delivery to the other interested clients and blocks the read
loop, and the envelope is not discarded, refuting the claim as stated. -/
theorem c4_full_channel_stalls_counterexample :
    deliverSeq [ChanState.mk 1 1 false, ChanState.mk 1 0 false]
        = ([SendOutcome.awaitsCapacity], [ChanState.mk 1 0 false]) ∧
      (deliverSeq [ChanState.mk 1 1 false, ChanState.mk 1 0 false]).2 ≠ [] := by
  refine ⟨rfl, ?_⟩
  intro hc
  simp [deliverSeq, mpscSend] at hc

/-- C4 (amended): a closed client channel never stalls delivery — its send
error returns at once and is discarded — and whenever every interested
channel is closed or has free capacity, the loop serves all interested
clients without any send awaiting capacity; a full open channel, however,
blocks the loop (see the counterexample). -/
theorem c4_closed_channel_never_stalls {chans : List ChanState}
    (h : ∀ ch ∈ chans, ch.closed = true ∨ ch.queued < ch.capacity) :
    (deliverSeq chans).2 = [] ∧
      SendOutcome.awaitsCapacity ∉ (deliverSeq chans).1 := by
  induction chans with
  | nil => simp [deliverSeq]
  | cons ch rest ih =>
    have hch := h ch (List.mem_cons_self _ _)
    have hsend : mpscSend ch ≠ SendOutcome.awaitsCapacity := by
      unfold mpscSend
      by_cases hcl : ch.closed = true
      · rw [if_pos hcl]
        intro hc; cases hc
      · rw [if_neg hcl]
        have hq : ch.queued < ch.capacity := by
          rcases hch with hc | hc
          · exact absurd hc hcl
          · exact hc
        rw [if_pos hq]
        intro hc; cases hc
    have ihr := ih fun c hc => h c (List.mem_cons_of_mem _ hc)
    rw [deliverSeq_cons_done ch rest hsend]
    refine ⟨ihr.1, ?_⟩
    simp only [List.mem_cons]
    rintro (hc | hc)
    · exact hsend hc.symm
    · exact ihr.2 hc

/-- Witness for the amended C4: one closed channel followed by one open
channel with free capacity; every interested client is served or skipped
immediately and nothing awaits. -/
theorem c4_closed_channel_never_stalls_witness :
    (deliverSeq [ChanState.mk 1 0 true, ChanState.mk 2 1 false]).2 = [] ∧
      SendOutcome.awaitsCapacity ∉
        (deliverSeq [ChanState.mk 1 0 true, ChanState.mk 2 1 false]).1 :=
  c4_closed_channel_never_stalls (by decide)

/-- C5 counterexample: the control endpoint succeeds, the response parses
to a JSON object carrying no "stream"/"sessionid" string, and the handshake
would succeed; `connect` panics on the `unwrap` instead of returning an
error value, refuting the claim for the unusable-session-identifier case. -/
theorem c5_connect_panics_on_missing_sessionid :
    connect (Except.ok "resp") (fun _ => Except.ok (Json.obj []))
        (Except.ok (0 : Nat)) = ConnectResult.panicked := rfl

/-- C5 (amended): `connect` returns an error value when the control-endpoint
request fails, when the response body does not parse as JSON, or when the
streaming handshake fails after a session identifier was extracted; but a
parsed response with no string at "stream"/"sessionid" makes it panic
(`unwrap` on `None`) rather than return an error. -/
theorem c5_connect_error_paths {σ : Type} (parse : String → Except String Json)
    (handshake : Except String σ) :
    (∀ e : String, connect (Except.error e) parse handshake = ConnectResult.err e) ∧
      (∀ (resp e : String), parse resp = Except.error e →
        connect (Except.ok resp) parse handshake = ConnectResult.err e) ∧
      (∀ (resp : String) (j : Json), parse resp = Except.ok j →
        ((j.index "stream").index "sessionid").asStr = none →
        connect (Except.ok resp) parse handshake = ConnectResult.panicked) ∧
      (∀ (resp : String) (j : Json) (sid e : String), parse resp = Except.ok j →
        ((j.index "stream").index "sessionid").asStr = some sid →
        handshake = Except.error e →
        connect (Except.ok resp) parse handshake = ConnectResult.err e) := by
  refine ⟨fun e => rfl, ?_, ?_, ?_⟩
  · intro resp e hp
    unfold connect
    dsimp only
    rw [hp]
  · intro resp j hp hs
    unfold connect
    dsimp only
    rw [hp]
    dsimp only
    rw [hs]
  · intro resp j sid e hp hs hh
    unfold connect
    dsimp only
    rw [hp]
    dsimp only
    rw [hs]
    dsimp only
    rw [hh]

/-- Witness for the amended C5: a well-formed session response followed by a
refused handshake yields the handshake error. -/
theorem c5_connect_error_paths_witness :
    connect (Except.ok "resp")
        (fun _ => Except.ok
          (Json.obj [("stream", Json.obj [("sessionid", Json.str "S")])]))
        (Except.error "refused" : Except String Nat)
      = ConnectResult.err "refused" :=
  (c5_connect_error_paths
      (fun _ => Except.ok
        (Json.obj [("stream", Json.obj [("sessionid", Json.str "S")])]))
      (Except.error "refused" : Except String Nat)).2.2.2
    "resp" (Json.obj [("stream", Json.obj [("sessionid", Json.str "S")])])
    "S" "refused" rfl rfl rfl

/-- Lookup at the head key of a cons cell. -/
theorem lookupClient_cons_self {γ : Type} (k : String) (v : ClientSub γ)
    (rest : Clients γ) : lookupClient ((k, v) :: rest) k = some v := by
  simp [lookupClient]

/-- The interested list holds no entry under a key absent from the registry. -/
theorem countP_key_interested_zero {γ : Type} (cs : Clients γ) (cid s : String)
    (h : ∀ p ∈ cs, p.1 ≠ cid) :
    ((interested cs s).countP fun p => decide (p.1 = cid)) = 0 := by
  rw [List.countP_eq_zero]
  intro p hp
  have hmem : p ∈ cs := List.mem_of_mem_filter hp
  simp only [decide_eq_true_eq]
  exact h p hmem

/-- With unique keys, the interested list holds exactly one entry for a
registered client whose set contains the symbol, and none otherwise. -/
theorem countP_key_interested {γ : Type} : ∀ (cs : Clients γ), NodupKeys cs →
    ∀ (cid : String) (sub : ClientSub γ), lookupClient cs cid = some sub →
    ∀ s : String,
    ((interested cs s).countP fun p => decide (p.1 = cid)) =
      if s ∈ sub.symbols then 1 else 0
  | [], _, cid, sub, h, s => by simp [lookupClient] at h
  | (k, v) :: rest, hnd, cid, sub, h, s => by
    have hnd' : NodupKeys rest := (List.nodup_cons.mp hnd).2
    have hk_not : k ∉ rest.map Prod.fst := (List.nodup_cons.mp hnd).1
    by_cases hk : k = cid
    · subst hk
      rw [lookupClient_cons_self] at h
      injection h with hv
      subst hv
      have htail : ∀ p ∈ rest, p.1 ≠ k := by
        intro p hp hpk
        exact hk_not (hpk ▸ List.mem_map_of_mem Prod.fst hp)
      have hzero := countP_key_interested_zero rest k s htail
      by_cases hs : s ∈ v.symbols
      · rw [if_pos hs]
        have hfil : interested ((k, v) :: rest) s = (k, v) :: interested rest s := by
          simp [interested, List.filter_cons, hs]
        rw [hfil, List.countP_cons, hzero]
        simp
      · rw [if_neg hs]
        have hfil : interested ((k, v) :: rest) s = interested rest s := by
          simp [interested, List.filter_cons, hs]
        rw [hfil, hzero]
    · simp only [lookupClient, if_neg hk] at h
      have ih := countP_key_interested rest hnd' cid sub h s
      by_cases hs : s ∈ v.symbols
      · have hfil : interested ((k, v) :: rest) s = (k, v) :: interested rest s := by
          simp [interested, List.filter_cons, hs]
        rw [hfil, List.countP_cons, ih]
        simp [hk]
      · have hfil : interested ((k, v) :: rest) s = interested rest s := by
          simp [interested, List.filter_cons, hs]
        rw [hfil, ih]

/-- C7: routing of inbound data frames.  A frame that does not parse as
JSON delivers nothing and raises nothing; a parsed frame from which no
symbol can be extracted is dropped; and when a symbol is extracted the
senders receiving one envelope copy each are exactly those of the clients
whose desired set contains the symbol — with unique keys each registered
client receives exactly one copy when interested (so a frame matching two
clients goes to both) and none otherwise (so a frame matching no client is
delivered to none). -/
theorem c7_process_message_routing {γ : Type} (cs : Clients γ)
    (hnd : NodupKeys cs) :
    (∀ e : String, process_message (Except.error e) cs = []) ∧
      (∀ j : Json, extract_symbol_from_message j = none →
        process_message (Except.ok j) cs = []) ∧
      (∀ (j : Json) (s : String), extract_symbol_from_message j = some s →
        process_message (Except.ok j) cs =
            (interested cs s).map (fun p => p.2.data_tx) ∧
          ∀ (cid : String) (sub : ClientSub γ), lookupClient cs cid = some sub →
            ((interested cs s).countP fun p => decide (p.1 = cid)) =
              if s ∈ sub.symbols then 1 else 0) := by
  refine ⟨fun e => rfl, ?_, ?_⟩
  · intro j hj
    unfold process_message
    dsimp only
    rw [hj]
  · intro j s hj
    constructor
    · unfold process_message
      dsimp only
      rw [hj]
    · intro cid sub hlk
      exact countP_key_interested cs hnd cid sub hlk s

/-- Witness for C7: a frame for symbol X reaches exactly the two clients
interested in X (channels 0 and 1) and not the third. -/
theorem c7_process_message_routing_witness :
    process_message (Except.ok (Json.obj [("symbol", Json.str "X")]))
        ([("A", (⟨{"X"}, 0⟩ : ClientSub Nat)), ("B", ⟨{"X"}, 1⟩),
          ("C", ⟨{"Y"}, 2⟩)])
      = [0, 1] := by
  have h := (c7_process_message_routing
      ([("A", (⟨{"X"}, 0⟩ : ClientSub Nat)), ("B", ⟨{"X"}, 1⟩),
        ("C", ⟨{"Y"}, 2⟩)])
      (by decide)).2.2 (Json.obj [("symbol", Json.str "X")]) "X" rfl
  rw [h.1]
  decide

end RustTradier
